import Mathlib

/-!
# Continuum guidelines manager — verification development

Shallow embedding of `src/guidelines_manager.py` and `src/build_index.py`
(repository EnjiMD/Continuum).

Modelling conventions:
* Byte strings are `List Nat` (one entry per byte).
* Python exceptions are values of `PyErr`; a fallible operation returns
  `Except PyErr α`.
* The filesystem is an association list from paths (`List String`) to nodes
  (directory or file-with-content).  `Path.exists`, `read_bytes`,
  `write_bytes` and `mkdir(parents=True, exist_ok=True)` are modelled on it.
* External libraries (hashlib, the json codec, urllib) are not repository
  code; they are supplied through a `PyEnv` record: `sha256hex` is
  `hashlib.sha256(b).hexdigest()`, `jsonLoads` is `json.loads` composed with
  utf-8 decoding (`none` models a raised decode/parse exception), and `net`
  is the response of `urllib.request.urlopen(...).read()` for a URL.
* Network side effects are tracked in a `World` record holding the
  filesystem plus the log of URLs actually opened, so "no network I/O was
  attempted" is expressible as an unchanged log.
-/

namespace Continuum

/-- Paths are lists of components; `p ++ [c]` models `p / c`. -/
abbrev Path := List String

/-- A filesystem node: a directory or a regular file with byte content. -/
inductive Node where
  | dir : Node
  | file : List Nat → Node
deriving DecidableEq

/-- The filesystem: an association list from paths to nodes.  Later entries
are shadowed by earlier ones (writes prepend). -/
abbrev FS := List (Path × Node)

/-- First-match lookup of a path. -/
def FS.lookup : FS → Path → Option Node
  | [], _ => none
  | (q, n) :: rest, p => if p = q then some n else FS.lookup rest p

/-- `Path.exists()`: true for files and directories alike. -/
def FS.pathExists (fs : FS) (p : Path) : Bool :=
  (FS.lookup fs p).isSome

/-- `Path.read_bytes()` / `read_text`: content of a regular file, `none` when
the path is absent or is a directory (where Python would raise). -/
def FS.readBytes (fs : FS) (p : Path) : Option (List Nat) :=
  match FS.lookup fs p with
  | some (Node.file b) => some b
  | _ => none

/-- `Path.write_bytes(b)`: create or overwrite a regular file. -/
def FS.write (fs : FS) (p : Path) (b : List Nat) : FS :=
  (p, Node.file b) :: fs

/-- One step of `mkdir`: create the directory unless something already
exists at the path. -/
def FS.mkdirAt (fs : FS) (q : Path) : FS :=
  if (FS.lookup fs q).isSome then fs else (q, Node.dir) :: fs

/-- Worker for `mkdir(parents=True, exist_ok=True)`: create every missing
ancestor `done ++ s` for nonempty s ranging over the fronts of `todo`. -/
def FS.mkdirpAux : FS → Path → Path → FS
  | fs, _, [] => fs
  | fs, done, x :: rest => FS.mkdirpAux (FS.mkdirAt fs (done ++ [x])) (done ++ [x]) rest

/-- `p.mkdir(parents=True, exist_ok=True)` (the Python error when an ancestor
exists as a regular file is elided: existing entries are left untouched). -/
def FS.mkdirp (fs : FS) (p : Path) : FS :=
  FS.mkdirpAux fs [] p

/-- Immediate children of directory `p`: entries whose path is `p ++ [name]`,
in filesystem-list order (`Path.iterdir()`; a real directory never holds two
entries with the same name). -/
def FS.children (fs : FS) (p : Path) : List (String × Node) :=
  fs.filterMap (fun e =>
    match e.1.drop p.length with
    | [name] => if e.1.take p.length = p then some (name, e.2) else none
    | _ => none)

/-- Minimal model of the Python values produced by `json.loads`. -/
inductive Json where
  | null : Json
  | bool : Bool → Json
  | num : Int → Json
  | str : String → Json
  | arr : List Json → Json
  | obj : List (String × Json) → Json

/-- Key lookup in a decoded JSON object (`json.loads` yields dicts with
unique keys, so first-match lookup is exact). -/
def jLookup : List (String × Json) → String → Option Json
  | [], _ => none
  | (k, v) :: rest, key => if key = k then some v else jLookup rest key

/-- Python `str(x)` for decoded JSON values.  The repr of containers is not
exercised by any code path we verify and is rendered schematically. -/
def pyStr : Json → String
  | Json.str s => s
  | Json.num n => toString n
  | Json.bool true => "True"
  | Json.bool false => "False"
  | Json.null => "None"
  | Json.arr _ => "<list>"
  | Json.obj _ => "<dict>"

/-- Python exceptions raised by the code under study. -/
inductive PyErr where
  | valueError : String → PyErr
  | keyError : String → PyErr
  | attributeError : PyErr
  | typeError : PyErr
  | jsonDecodeError : PyErr
  | isADirectoryError : PyErr
  | urlError : String → PyErr
deriving DecidableEq

/-- The external libraries of `guidelines_manager.py`: hashlib's sha256
hexdigest, utf-8 decode + `json.loads` (`none` = raised), and the network's
response to `urllib.request.urlopen(req).read()`. -/
structure PyEnv where
  sha256hex : List Nat → String
  jsonLoads : List Nat → Option Json
  net : String → Except PyErr (List Nat)

/-- Mutable world threaded through effectful operations: the filesystem and
the log of URLs for which a network connection was actually opened. -/
structure World where
  fs : FS
  netlog : List String
deriving Inhabited

/-- `GuidelinesManager.__init__` resolves `base_dir` from the platform
(`_app_data_dir`) and `builtin_dir` next to the module file; both are
injected here as opaque paths, as the spec's §9 recommends. -/
structure GuidelinesManager where
  guidelines_dir : Path
  builtin_dir : Path

/-- Python `str.split(".")` on the character list: `"".split(".") == [""]`,
separators are not merged. -/
def splitOnDot : List Char → List (List Char)
  | [] => [[]]
  | c :: rest =>
    let r := splitOnDot rest
    if c = '.' then [] :: r
    else
      match r with
      | h :: t => (c :: h) :: t
      | [] => [[c]]

/-- Python `str.strip()`: drop leading and trailing whitespace. -/
def pyStrip (cs : List Char) : List Char :=
  ((cs.dropWhile Char.isWhitespace).reverse.dropWhile Char.isWhitespace).reverse

/-- Python `str.lower()` (characters outside A-Z are untouched, which covers
every string the program lowercases). -/
def pyLower (s : String) : String :=
  String.mk (s.toList.map Char.toLower)

/-- Python `s.startswith(pre)`. -/
def listStartsWith : List Char → List Char → Bool
  | _, [] => true
  | [], _ :: _ => false
  | c :: cs, d :: ds => c = d && listStartsWith cs ds

/-- Python `s.startswith(pre)` on strings. -/
def pyStartsWith (s pre : String) : Bool :=
  listStartsWith s.toList pre.toList

/-- `_parse_version(v)`: `(v or "0").strip().split(".")`, keep at most three
fields, strip non-digits from each, empty → 0, pad with zeros.  The input is
an `Option String` so that the `None`-equivalent handled by `v or "0"` is
representable.  (`c.isdigit()` is modelled as the ASCII digit test; the
`int()` call on a digits-only string cannot fail, so the `except` arm is
dead.) -/
def parse_version (v : Option String) : Nat × Nat × Nat :=
  let s := match v with
    | none => "0"
    | some t => if t = "" then "0" else t
  let parts := (splitOnDot (pyStrip s.toList)).take 3
  let nums := parts.map (fun p =>
    (p.filter Char.isDigit).foldl (fun acc c => acc * 10 + (c.toNat - 48)) 0)
  match nums with
  | [] => (0, 0, 0)
  | [a] => (a, 0, 0)
  | [a, b] => (a, b, 0)
  | a :: b :: c :: _ => (a, b, c)

/-- Python `<` on `tuple[int, int, int]`: lexicographic comparison. -/
def tupleLt : Nat × Nat × Nat → Nat × Nat × Nat → Bool
  | (a, b, c), (d, e, f) =>
      decide (a < d) || (decide (a = d) && (decide (b < e) || (decide (b = e) && decide (c < f))))

/-- Python `>` on `tuple[int, int, int]`. -/
def tupleGt (x y : Nat × Nat × Nat) : Bool :=
  tupleLt y x

/-- `_sha256_bytes(b)`: `hashlib.sha256(); update(b); hexdigest()` — one
application of the library hash to the whole payload. -/
def sha256_bytes (env : PyEnv) (b : List Nat) : String :=
  env.sha256hex b

/-- `build_index.sha256_file(p)`: the same library hash applied to
`p.read_bytes()`; `none` models the raised OSError when the file is
unreadable. -/
def sha256_file (env : PyEnv) (fs : FS) (p : Path) : Option String :=
  (FS.readBytes fs p).map env.sha256hex

/-- `_https_only(url)`: raise `ValueError` unless
`url.lower().startswith("https://")`. -/
def https_only (url : String) : Except PyErr Unit :=
  if pyStartsWith (pyLower url) "https://" then Except.ok ()
  else Except.error (PyErr.valueError ("Refusing non-HTTPS URL: " ++ url))

/-- `_fetch_bytes(url)`: HTTPS check first, then `urlopen` (logged in the
world's netlog) returning the response body. -/
def fetch_bytes (env : PyEnv) (url : String) (w : World) :
    Except PyErr (List Nat) × World :=
  match https_only url with
  | Except.error e => (Except.error e, w)
  | Except.ok _ =>
    match env.net url with
    | Except.ok b => (Except.ok b, { w with netlog := w.netlog ++ [url] })
    | Except.error e => (Except.error e, { w with netlog := w.netlog ++ [url] })

/-- `_fetch_json(url)`: fetch bytes then utf-8 decode + `json.loads`. -/
def fetch_json (env : PyEnv) (url : String) (w : World) :
    Except PyErr Json × World :=
  match fetch_bytes env url w with
  | (Except.error e, w1) => (Except.error e, w1)
  | (Except.ok raw, w1) =>
    match env.jsonLoads raw with
    | none => (Except.error PyErr.jsonDecodeError, w1)
    | some j => (Except.ok j, w1)

/-- `PackInfo` (frozen dataclass): one typed catalog entry. -/
structure PackInfo where
  id : String
  title : String
  version : String
  manifest_url : String
  rules_url : String
  sha256_manifest : String
  sha256_rules : String
deriving DecidableEq

/-- `PackUpdate` (frozen dataclass): a pack paired with the locally installed
version, `none` meaning a fresh install. -/
structure PackUpdate where
  pack : PackInfo
  installed_version : Option String
deriving DecidableEq

/-- Python `p[k]` on a decoded JSON value: `KeyError` when the key is absent,
`TypeError` when `p` is not a dict. -/
def pyGetItem (p : Json) (k : String) : Except PyErr Json :=
  match p with
  | Json.obj kvs =>
    match jLookup kvs k with
    | some v => Except.ok v
    | none => Except.error (PyErr.keyError k)
  | _ => Except.error PyErr.attributeError

/-- Python `p.get(k, dflt)` on a decoded JSON value: `AttributeError` when
`p` is not a dict. -/
def pyGet (p : Json) (k : String) (dflt : Json) : Except PyErr Json :=
  match p with
  | Json.obj kvs => Except.ok ((jLookup kvs k).getD dflt)
  | _ => Except.error PyErr.attributeError

/-- The `PackInfo(...)` construction inside `fetch_index`'s loop, with
Python's left-to-right evaluation of the keyword arguments (in particular
`p.get("title", p["id"])` evaluates `p["id"]` eagerly). -/
def packEntryToInfo (p : Json) : Except PyErr PackInfo := do
  let rawId ← pyGetItem p "id"
  let idAgain ← pyGetItem p "id"
  let title ← pyGet p "title" idAgain
  let version ← pyGet p "version" (Json.str "0.0.0")
  let mu ← pyGetItem p "manifest_url"
  let ru ← pyGetItem p "rules_url"
  let sm ← pyGetItem p "sha256_manifest"
  let sr ← pyGetItem p "sha256_rules"
  Except.ok
    { id := pyStr rawId
      title := pyStr title
      version := pyStr version
      manifest_url := pyStr mu
      rules_url := pyStr ru
      sha256_manifest := pyLower (pyStr sm)
      sha256_rules := pyLower (pyStr sr) }

/-- The `for p in packs: out.append(PackInfo(...))` loop of `fetch_index`:
the first raising entry aborts the whole loop, discarding the partial list. -/
def packsLoop : List Json → Except PyErr (List PackInfo)
  | [] => Except.ok []
  | p :: rest => do
    let i ← packEntryToInfo p
    let r ← packsLoop rest
    Except.ok (i :: r)

/-- `fetch_index(index_url)`: fetch and decode the catalog, read
`idx.get("packs", [])` (`AttributeError` if the document is not an object),
then run the projection loop.  Iterating a non-list `packs` value is
collapsed to a `TypeError`. -/
def fetch_index (env : PyEnv) (index_url : String) (w : World) :
    Except PyErr (List PackInfo) × World :=
  match fetch_json env index_url w with
  | (Except.error e, w1) => (Except.error e, w1)
  | (Except.ok idx, w1) =>
    match idx with
    | Json.obj kvs =>
      match (jLookup kvs "packs").getD (Json.arr []) with
      | Json.arr ps => (packsLoop ps, w1)
      | _ => (Except.error PyErr.typeError, w1)
    | _ => (Except.error PyErr.attributeError, w1)

/-- Loop body of `list_installed` over a snapshot of
`guidelines_dir.iterdir()`: skip non-directories, skip directories without a
`manifest.json`, and swallow (`except Exception: continue`) every failure of
`read_text` / `json.loads` / `.get` on a non-dict document. -/
def listLoop (env : PyEnv) (mgr : GuidelinesManager) (fs : FS) :
    List (String × Node) → List (String × String)
  | [] => []
  | (name, node) :: rest =>
    match node with
    | Node.file _ => listLoop env mgr fs rest
    | Node.dir =>
      let m := mgr.guidelines_dir ++ [name, "manifest.json"]
      if FS.pathExists fs m then
        match FS.readBytes fs m with
        | none => listLoop env mgr fs rest
        | some b =>
          match env.jsonLoads b with
          | none => listLoop env mgr fs rest
          | some (Json.obj kvs) =>
            (name, pyStr ((jLookup kvs "version").getD (Json.str "0.0.0")))
              :: listLoop env mgr fs rest
          | some _ => listLoop env mgr fs rest
      else listLoop env mgr fs rest

/-- `list_installed()`: the dict `{d.name: str(manifest version)}` built over
the store root's immediate entries, as an insertion-ordered association
list. -/
def list_installed (env : PyEnv) (mgr : GuidelinesManager) (fs : FS) :
    List (String × String) :=
  listLoop env mgr fs (FS.children fs mgr.guidelines_dir)

/-- Python `dict.get` on the installed map. -/
def dictGet : List (String × String) → String → Option String
  | [], _ => none
  | (k, v) :: rest, key => if key = k then some v else dictGet rest key

/-- `read_pack_rules(pack_id)`: `[]` when the rules file is absent, otherwise
`json.loads(read_text(...))` with no exception handling (a directory at the
path or malformed JSON raises to the caller). -/
def read_pack_rules (env : PyEnv) (mgr : GuidelinesManager) (fs : FS)
    (pack_id : String) : Except PyErr Json :=
  let rules_path := mgr.guidelines_dir ++ [pack_id, "rules.json"]
  if FS.pathExists fs rules_path then
    match FS.readBytes fs rules_path with
    | none => Except.error PyErr.isADirectoryError
    | some b =>
      match env.jsonLoads b with
      | none => Except.error PyErr.jsonDecodeError
      | some j => Except.ok j
  else Except.ok (Json.arr [])

/-- The update-planning loop inside `check_updates` (lines 155-163): missing
locally → install entry; otherwise emit an upgrade entry exactly when the
parsed remote version is strictly greater. -/
def planLoop (installed : List (String × String)) : List PackInfo → List PackUpdate
  | [] => []
  | p :: rest =>
    match dictGet installed p.id with
    | none => { pack := p, installed_version := none } :: planLoop installed rest
    | some local_v =>
      if tupleGt (parse_version (some p.version)) (parse_version (some local_v)) then
        { pack := p, installed_version := some local_v } :: planLoop installed rest
      else planLoop installed rest

/-- `check_updates(index_url)`: fetch the remote catalog, enumerate the local
store, and plan. -/
def check_updates (env : PyEnv) (mgr : GuidelinesManager) (index_url : String)
    (w : World) : Except PyErr (List PackUpdate) × World :=
  match fetch_index env index_url w with
  | (Except.error e, w1) => (Except.error e, w1)
  | (Except.ok remote, w1) =>
    (Except.ok (planLoop (list_installed env mgr w1.fs) remote), w1)

/-- `install_pack(pack)`: fetch both artifacts, verify both digests, and only
then create the destination directory and write both files. -/
def install_pack (env : PyEnv) (mgr : GuidelinesManager) (pack : PackInfo)
    (w : World) : Except PyErr Unit × World :=
  match fetch_bytes env pack.manifest_url w with
  | (Except.error e, w1) => (Except.error e, w1)
  | (Except.ok manifest_bytes, w1) =>
    match fetch_bytes env pack.rules_url w1 with
    | (Except.error e, w2) => (Except.error e, w2)
    | (Except.ok rules_bytes, w2) =>
      if sha256_bytes env manifest_bytes ≠ pack.sha256_manifest then
        (Except.error (PyErr.valueError ("manifest SHA mismatch for " ++ pack.id)), w2)
      else if sha256_bytes env rules_bytes ≠ pack.sha256_rules then
        (Except.error (PyErr.valueError ("rules SHA mismatch for " ++ pack.id)), w2)
      else
        let dest := mgr.guidelines_dir ++ [pack.id]
        let fs1 := FS.mkdirp w2.fs dest
        let fs2 := FS.write fs1 (dest ++ ["manifest.json"]) manifest_bytes
        let fs3 := FS.write fs2 (dest ++ ["rules.json"]) rules_bytes
        (Except.ok (), { w2 with fs := fs3 })

/-- The `if src.exists(): (dest / fname).write_bytes(src.read_bytes())` step
of builtin seeding; a directory at `src` makes `read_bytes` raise. -/
def copyIfExists (fs : FS) (srcDir destDir : Path) (fname : String) :
    Except PyErr Unit × FS :=
  let src := srcDir ++ [fname]
  if FS.pathExists fs src then
    match FS.readBytes fs src with
    | some b => (Except.ok (), FS.write fs (destDir ++ [fname]) b)
    | none => (Except.error PyErr.isADirectoryError, fs)
  else (Except.ok (), fs)

/-- Loop body of `ensure_builtin_installed` over a snapshot of
`packs_dir.iterdir()`: skip non-directories, skip packs whose destination
already exists, otherwise make the destination and copy the two artifacts. -/
def seedLoop (mgr : GuidelinesManager) : List (String × Node) → FS →
    Except PyErr Unit × FS
  | [], fs => (Except.ok (), fs)
  | (name, node) :: rest, fs =>
    match node with
    | Node.file _ => seedLoop mgr rest fs
    | Node.dir =>
      let dest := mgr.guidelines_dir ++ [name]
      if FS.pathExists fs dest then seedLoop mgr rest fs
      else
        let fs1 := FS.mkdirp fs dest
        match copyIfExists fs1 (mgr.builtin_dir ++ ["packs", name]) dest "manifest.json" with
        | (Except.error e, fs2) => (Except.error e, fs2)
        | (Except.ok _, fs2) =>
          match copyIfExists fs2 (mgr.builtin_dir ++ ["packs", name]) dest "rules.json" with
          | (Except.error e, fs3) => (Except.error e, fs3)
          | (Except.ok _, fs3) => seedLoop mgr rest fs3

/-- `ensure_builtin_installed()`: no-op unless the builtin directory, its
`index.json` and its `packs` directory all exist; then seed each builtin
pack whose destination is absent. -/
def ensure_builtin_installed (mgr : GuidelinesManager) (fs : FS) :
    Except PyErr Unit × FS :=
  if FS.pathExists fs mgr.builtin_dir then
    if FS.pathExists fs (mgr.builtin_dir ++ ["index.json"]) then
      if FS.pathExists fs (mgr.builtin_dir ++ ["packs"]) then
        seedLoop mgr (FS.children fs (mgr.builtin_dir ++ ["packs"])) fs
      else (Except.ok (), fs)
    else (Except.ok (), fs)
  else (Except.ok (), fs)

/-! ## Spec-side companion definitions

These follow the wording of the specification (not the source) and are
compared with the embedded code in the refinement theorems. -/

/-- Spec §4.3: a pack entry carries all required fields when it is an object
with keys `id`, `manifest_url`, `rules_url`, `sha256_manifest`,
`sha256_rules`. -/
def hasRequired : Json → Bool
  | Json.obj kvs =>
    (jLookup kvs "id").isSome && (jLookup kvs "manifest_url").isSome &&
      (jLookup kvs "rules_url").isSome && (jLookup kvs "sha256_manifest").isSome &&
      (jLookup kvs "sha256_rules").isSome
  | _ => false

/-- Spec §4.3's description of a projected descriptor, for entries with all
required fields: `title` defaults to the entry's `id`, `version` defaults to
`"0.0.0"`, and the two digest fields are normalized to lowercase.
(Meaningful only under `hasRequired`.) -/
def specDescriptor : Json → PackInfo
  | Json.obj kvs =>
    { id := pyStr ((jLookup kvs "id").getD Json.null)
      title := pyStr ((jLookup kvs "title").getD ((jLookup kvs "id").getD Json.null))
      version := pyStr ((jLookup kvs "version").getD (Json.str "0.0.0"))
      manifest_url := pyStr ((jLookup kvs "manifest_url").getD Json.null)
      rules_url := pyStr ((jLookup kvs "rules_url").getD Json.null)
      sha256_manifest := pyLower (pyStr ((jLookup kvs "sha256_manifest").getD Json.null))
      sha256_rules := pyLower (pyStr ((jLookup kvs "sha256_rules").getD Json.null)) }
  | _ => { id := "", title := "", version := "", manifest_url := "", rules_url := "",
           sha256_manifest := "", sha256_rules := "" }

/-- Spec §4.4's description of one `listInstalled` entry: an immediate child
is reported iff it is a directory whose manifest document reads and parses as
an object, with the `version` field (default `"0.0.0"`) as value. -/
def specListEntry (env : PyEnv) (mgr : GuidelinesManager) (fs : FS)
    (e : String × Node) : Option (String × String) :=
  match e.2 with
  | Node.dir =>
    match FS.readBytes fs (mgr.guidelines_dir ++ [e.1, "manifest.json"]) with
    | some b =>
      match env.jsonLoads b with
      | some (Json.obj kvs) =>
        some (e.1, pyStr ((jLookup kvs "version").getD (Json.str "0.0.0")))
      | _ => none
    | none => none
  | _ => none

/-- Spec §4.5's declarative form of one planning decision. -/
def specPlanEntry (installed : List (String × String)) (p : PackInfo) :
    Option PackUpdate :=
  match dictGet installed p.id with
  | none => some { pack := p, installed_version := none }
  | some local_v =>
    if tupleGt (parse_version (some p.version)) (parse_version (some local_v)) then
      some { pack := p, installed_version := some local_v }
    else none

/-! ## Concrete test fixtures (used by witnesses and counterexamples) -/

/-- A manager rooted at `g` with builtins at `b`. -/
def mgr0 : GuidelinesManager :=
  { guidelines_dir := ["g"], builtin_dir := ["b"] }

/-- A concrete environment: every URL answers `[1, 2, 3]`, the hash of any
payload is `"aa"`, and only the byte strings `[1]` and `[3]` decode (to a
version-1.0.0 manifest object and to an empty rules array). -/
def env0 : PyEnv :=
  { sha256hex := fun _ => "aa"
    jsonLoads := fun b =>
      if b = [1] then some (Json.obj [("version", Json.str "1.0.0")])
      else if b = [3] then some (Json.arr [])
      else none
    net := fun _ => Except.ok [1, 2, 3] }

/-- An empty world. -/
def w0 : World := { fs := [], netlog := [] }

/-- A store with one valid pack (`good`, manifest decodes to version 1.0.0)
and one directory with a corrupt manifest (`bad`). -/
def fsStore : FS :=
  [ (["g"], Node.dir),
    (["g", "good"], Node.dir),
    (["g", "good", "manifest.json"], Node.file [1]),
    (["g", "bad"], Node.dir),
    (["g", "bad", "manifest.json"], Node.file [2]) ]

/-- A store where pack `a` is installed (version 1.0.0) and the builtin
source also ships pack `a` (different bytes) plus a pack `c` absent locally. -/
def fsSeed : FS :=
  [ (["g"], Node.dir),
    (["g", "a"], Node.dir),
    (["g", "a", "manifest.json"], Node.file [1]),
    (["g", "a", "rules.json"], Node.file [3]),
    (["b"], Node.dir),
    (["b", "index.json"], Node.file [9]),
    (["b", "packs"], Node.dir),
    (["b", "packs", "a"], Node.dir),
    (["b", "packs", "a", "manifest.json"], Node.file [7]),
    (["b", "packs", "a", "rules.json"], Node.file [8]),
    (["b", "packs", "c"], Node.dir),
    (["b", "packs", "c", "manifest.json"], Node.file [5]) ]

/-- A store whose pack `p` has a rules file that decodes to the empty array. -/
def fsRules : FS :=
  [ (["g"], Node.dir),
    (["g", "p"], Node.dir),
    (["g", "p", "rules.json"], Node.file [3]) ]

/-- A store whose pack `p` has a rules file with undecodable bytes. -/
def fsRulesBad : FS :=
  [ (["g"], Node.dir),
    (["g", "p"], Node.dir),
    (["g", "p", "rules.json"], Node.file [2]) ]

/-- A descriptor whose fetched artifacts (hashing to `"aa"` under `env0`)
cannot match its declared manifest digest `"bb"`. -/
def packBadManifest : PackInfo :=
  { id := "p1", title := "P1", version := "1.0.0",
    manifest_url := "https://m", rules_url := "https://r",
    sha256_manifest := "bb", sha256_rules := "aa" }

/-- A descriptor whose declared rules digest `"cc"` cannot match. -/
def packBadRules : PackInfo :=
  { id := "p2", title := "P2", version := "1.0.0",
    manifest_url := "https://m2", rules_url := "https://r2",
    sha256_manifest := "aa", sha256_rules := "cc" }

/-- A catalog entry with every field present, mixed-case digests. -/
def entryFull : Json :=
  Json.obj
    [ ("id", Json.str "A"), ("title", Json.str "Pack A"),
      ("version", Json.str "1.2.0"),
      ("manifest_url", Json.str "https://m"), ("rules_url", Json.str "https://r"),
      ("sha256_manifest", Json.str "ABCD"), ("sha256_rules", Json.str "EF01") ]

/-- A catalog entry lacking the optional fields. -/
def entryDefaults : Json :=
  Json.obj
    [ ("id", Json.str "B"),
      ("manifest_url", Json.str "https://m2"), ("rules_url", Json.str "https://r2"),
      ("sha256_manifest", Json.str "00ff"), ("sha256_rules", Json.str "11EE") ]

/-- A catalog entry missing the required `sha256_rules` field. -/
def entryMissing : Json :=
  Json.obj
    [ ("id", Json.str "C"),
      ("manifest_url", Json.str "https://m3"), ("rules_url", Json.str "https://r3"),
      ("sha256_manifest", Json.str "00ff") ]

/-- An environment whose catalog URL decodes to a well-formed two-entry
catalog document. -/
def envCatalogOk : PyEnv :=
  { sha256hex := fun _ => "aa"
    jsonLoads := fun b =>
      if b = [1, 2, 3] then some (Json.obj [("packs", Json.arr [entryFull, entryDefaults])])
      else none
    net := fun _ => Except.ok [1, 2, 3] }

/-- An environment whose catalog URL decodes to a catalog with one good and
one malformed entry. -/
def envCatalogBad : PyEnv :=
  { sha256hex := fun _ => "aa"
    jsonLoads := fun b =>
      if b = [1, 2, 3] then some (Json.obj [("packs", Json.arr [entryFull, entryMissing])])
      else none
    net := fun _ => Except.ok [1, 2, 3] }

/-! ## Theorems -/

/-- Fetching never touches the filesystem. -/
theorem fetch_bytes_fs (env : PyEnv) (url : String) (w : World) :
    ((fetch_bytes env url w).2).fs = w.fs := by
  unfold fetch_bytes
  cases https_only url with
  | error e => rfl
  | ok u =>
    cases env.net url with
    | ok b => rfl
    | error e => rfl

/-- C5: the version parser is total — it returns a triple of natural numbers
for every string and for the `None`-equivalent — and `parse("")`,
`parse("abc")` and `parse(None)` all yield `(0, 0, 0)`. -/
theorem c5_parse_version_total :
    (∀ v : Option String, ∃ t : Nat × Nat × Nat, parse_version v = t)
    ∧ parse_version (some "") = (0, 0, 0)
    ∧ parse_version (some "abc") = (0, 0, 0)
    ∧ parse_version none = (0, 0, 0) :=
  ⟨fun v => ⟨parse_version v, rfl⟩, by decide, by decide, by decide⟩

/-- C6: version ordering is numeric lexicographic comparison of the parsed
triplet: `parse "2.10.1" > parse "2.9.9"`, `parse "1.2.3-beta"` equals
`parse "1.2.3"`, and `tupleGt` is exactly the lexicographic strict order. -/
theorem c6_version_ordering_lex :
    tupleGt (parse_version (some "2.10.1")) (parse_version (some "2.9.9")) = true
    ∧ parse_version (some "1.2.3-beta") = parse_version (some "1.2.3")
    ∧ ∀ x y : Nat × Nat × Nat, tupleGt x y = true ↔
        (y.1 < x.1 ∨ (y.1 = x.1 ∧ (y.2.1 < x.2.1 ∨ (y.2.1 = x.2.1 ∧ y.2.2 < x.2.2)))) := by
  refine ⟨by decide, by decide, ?_⟩
  rintro ⟨a, b, c⟩ ⟨d, e, f⟩
  simp [tupleGt, tupleLt]

/-- C3: update planning is the order-preserving projection of the remote
catalog: descriptors absent locally yield an install entry, locally present
descriptors yield an upgrade entry carrying the installed version exactly
when the parsed remote version is strictly greater, and all others are
dropped. -/
theorem c3_plan_updates_filterMap (installed : List (String × String))
    (remote : List PackInfo) :
    planLoop installed remote = remote.filterMap (specPlanEntry installed) := by
  induction remote with
  | nil => rfl
  | cons p rest ih =>
    simp only [planLoop, specPlanEntry, List.filterMap_cons]
    cases dictGet installed p.id with
    | none => simpa using ih
    | some lv =>
      by_cases h : tupleGt (parse_version (some p.version)) (parse_version (some lv)) = true
      · simpa [h] using ih
      · simp only [Bool.not_eq_true] at h
        simpa [h] using ih

/-- C2: every fetch of a URL that does not start (case-insensitively) with
`https://` fails with the `ValueError` of `_https_only` and leaves the world
— in particular the log of opened network connections — untouched; this
holds for the raw byte fetch, for the catalog fetch, and for the artifact
fetch that starts `install_pack`. -/
theorem c2_https_only_no_io (env : PyEnv) (mgr : GuidelinesManager)
    (url : String) (w : World)
    (h : pyStartsWith (pyLower url) "https://" = false) :
    fetch_bytes env url w =
      (Except.error (PyErr.valueError ("Refusing non-HTTPS URL: " ++ url)), w)
    ∧ fetch_index env url w =
      (Except.error (PyErr.valueError ("Refusing non-HTTPS URL: " ++ url)), w)
    ∧ ∀ pack : PackInfo, pack.manifest_url = url →
        install_pack env mgr pack w =
          (Except.error (PyErr.valueError ("Refusing non-HTTPS URL: " ++ url)), w) := by
  have hfb : fetch_bytes env url w =
      (Except.error (PyErr.valueError ("Refusing non-HTTPS URL: " ++ url)), w) := by
    unfold fetch_bytes https_only
    rw [h]
    rfl
  refine ⟨hfb, ?_, ?_⟩
  · unfold fetch_index fetch_json
    rw [hfb]
  · intro pack hp
    unfold install_pack
    rw [hp, hfb]

/-- C2 witness: `fetch_index` on `http://example/index.json` raises the
non-HTTPS `ValueError` with no network connection logged. -/
theorem c2_https_only_no_io_witness :
    fetch_index env0 "http://example/index.json" w0 =
      (Except.error (PyErr.valueError "Refusing non-HTTPS URL: http://example/index.json"), w0) :=
  (c2_https_only_no_io env0 mgr0 "http://example/index.json" w0 (by decide)).2.1

/-- C1: when both artifact fetches succeed but a digest check fails —
either the manifest digest differs, or the manifest digest matches and the
rules digest differs — `install_pack` raises the `ValueError` naming the
pack id and the failing artifact, and the filesystem after the call is
exactly the filesystem before it: no destination directory is created and
no file is written. -/
theorem c1_install_integrity (env : PyEnv) (mgr : GuidelinesManager)
    (pack : PackInfo) (w w1 w2 : World) (mb rb : List Nat)
    (hm : fetch_bytes env pack.manifest_url w = (Except.ok mb, w1))
    (hr : fetch_bytes env pack.rules_url w1 = (Except.ok rb, w2)) :
    (sha256_bytes env mb ≠ pack.sha256_manifest →
      install_pack env mgr pack w =
        (Except.error (PyErr.valueError ("manifest SHA mismatch for " ++ pack.id)), w2)
      ∧ w2.fs = w.fs)
    ∧ (sha256_bytes env mb = pack.sha256_manifest →
        sha256_bytes env rb ≠ pack.sha256_rules →
      install_pack env mgr pack w =
        (Except.error (PyErr.valueError ("rules SHA mismatch for " ++ pack.id)), w2)
      ∧ w2.fs = w.fs) := by
  have h1 : w1.fs = w.fs := by
    have hfs := fetch_bytes_fs env pack.manifest_url w
    rw [hm] at hfs
    exact hfs
  have h2 : w2.fs = w.fs := by
    have hfs := fetch_bytes_fs env pack.rules_url w1
    rw [hr] at hfs
    rw [hfs, h1]
  constructor
  · intro hne
    refine ⟨?_, h2⟩
    unfold install_pack
    rw [hm]
    dsimp only
    rw [hr]
    simp only [if_pos hne]
  · intro heq hne
    refine ⟨?_, h2⟩
    unfold install_pack
    rw [hm]
    dsimp only
    rw [hr]
    simp only [if_neg (not_not_intro heq), if_pos hne]

/-- C1 witness: a concrete install whose manifest payload hashes to `"aa"`
against a declared digest `"bb"` fails with the identifying error and leaves
the (empty) filesystem unchanged while both fetches were performed. -/
theorem c1_install_integrity_witness :
    install_pack env0 mgr0 packBadManifest w0 =
      (Except.error (PyErr.valueError "manifest SHA mismatch for p1"),
        { fs := [], netlog := ["https://m", "https://r"] })
    ∧ ({ fs := [], netlog := ["https://m", "https://r"] } : World).fs = w0.fs :=
  (c1_install_integrity env0 mgr0 packBadManifest w0
      { fs := [], netlog := ["https://m"] }
      { fs := [], netlog := ["https://m", "https://r"] }
      [1, 2, 3] [1, 2, 3] rfl rfl).1 (by decide)

/-- A successful `read_bytes` implies the path exists. -/
theorem readBytes_pathExists {fs : FS} {p : Path} {b : List Nat}
    (h : FS.readBytes fs p = some b) : FS.pathExists fs p = true := by
  unfold FS.readBytes at h
  unfold FS.pathExists
  cases hl : FS.lookup fs p with
  | none => rw [hl] at h; cases h
  | some n => rfl

/-- C9: the digest function is deterministic, and the index builder's
file-level digest (`sha256_file`) of a file holding payload `b` is exactly
the manager's verification digest (`sha256_bytes`) of `b` — both apply the
same hash to the same bytes, so a catalog built from on-disk artifacts
carries the digests that install-time verification recomputes. -/
theorem c9_build_verify_digest_agree (env : PyEnv) (fs : FS) (p : Path)
    (b : List Nat) (h : FS.readBytes fs p = some b) :
    sha256_file env fs p = some (sha256_bytes env b)
    ∧ ∀ b' : List Nat, b' = b → sha256_bytes env b' = sha256_bytes env b := by
  constructor
  · unfold sha256_file sha256_bytes
    rw [h]
    rfl
  · intro b' hb
    rw [hb]

/-- C9 witness: the builder's digest of the concrete on-disk rules file
equals the manager's digest of its payload. -/
theorem c9_build_verify_digest_agree_witness :
    sha256_file env0 fsRules ["g", "p", "rules.json"] = some (sha256_bytes env0 [3]) :=
  (c9_build_verify_digest_agree env0 fsRules ["g", "p", "rules.json"] [3] rfl).1

/-- C10 counterexample: a present rules file whose bytes decode to the empty
JSON array also yields an empty sequence, so "returns an empty sequence only
when the rules file is absent" is false as stated. -/
theorem c10_empty_with_file_present :
    read_pack_rules env0 mgr0 fsRules "p" = Except.ok (Json.arr [])
    ∧ FS.pathExists fsRules (mgr0.guidelines_dir ++ ["p", "rules.json"]) = true :=
  ⟨rfl, rfl⟩

/-- C10 (amended): `read_pack_rules` returns the empty sequence when the
rules file is absent; when the file is present, a malformed document
propagates the decode exception to the caller — unlike `list_installed`
there is no silent recovery — and a well-formed document is returned as
parsed (possibly itself empty). -/
theorem c10_read_rules_propagates (env : PyEnv) (mgr : GuidelinesManager)
    (fs : FS) (pid : String) :
    (FS.pathExists fs (mgr.guidelines_dir ++ [pid, "rules.json"]) = false →
      read_pack_rules env mgr fs pid = Except.ok (Json.arr []))
    ∧ (∀ b, FS.readBytes fs (mgr.guidelines_dir ++ [pid, "rules.json"]) = some b →
        env.jsonLoads b = none →
        read_pack_rules env mgr fs pid = Except.error PyErr.jsonDecodeError)
    ∧ (∀ b j, FS.readBytes fs (mgr.guidelines_dir ++ [pid, "rules.json"]) = some b →
        env.jsonLoads b = some j →
        read_pack_rules env mgr fs pid = Except.ok j) := by
  refine ⟨?_, ?_, ?_⟩
  · intro h
    unfold read_pack_rules
    simp [h]
  · intro b hb hj
    unfold read_pack_rules
    simp [readBytes_pathExists hb, hb, hj]
  · intro b j hb hj
    unfold read_pack_rules
    simp [readBytes_pathExists hb, hb, hj]

/-- C10 witness: a present rules file with undecodable bytes makes
`read_pack_rules` raise the JSON decode error instead of returning `[]`. -/
theorem c10_read_rules_propagates_witness :
    read_pack_rules env0 mgr0 fsRulesBad "p" = Except.error PyErr.jsonDecodeError :=
  (c10_read_rules_propagates env0 mgr0 fsRulesBad "p").2.1 [2] rfl rfl

/-- C7: `list_installed` is exactly the per-entry partial projection of the
store root's immediate children — a directory is reported with its parsed
manifest's `version` (default `"0.0.0"`) and every non-directory, missing
manifest, unreadable, undecodable or non-object manifest is skipped without
aborting the rest — and on a concrete store holding one valid pack and one
corrupt-manifest directory it returns only the valid pack. -/
theorem c7_list_installed_skip_invalid (env : PyEnv) (mgr : GuidelinesManager)
    (fs : FS) :
    list_installed env mgr fs =
      (FS.children fs mgr.guidelines_dir).filterMap (specListEntry env mgr fs)
    ∧ list_installed env0 mgr0 fsStore = [("good", "1.0.0")] := by
  refine ⟨?_, by rfl⟩
  unfold list_installed
  generalize FS.children fs mgr.guidelines_dir = l
  induction l with
  | nil => rfl
  | cons e rest ih =>
    obtain ⟨name, node⟩ := e
    cases node with
    | file b => simpa [listLoop, specListEntry] using ih
    | dir =>
      simp only [listLoop, specListEntry, List.filterMap_cons, FS.pathExists, FS.readBytes]
      cases hl : FS.lookup fs (mgr.guidelines_dir ++ [name, "manifest.json"]) with
      | none => simpa [hl] using ih
      | some n =>
        cases n with
        | dir => simpa [hl] using ih
        | file b =>
          cases hj : env.jsonLoads b with
          | none => simpa [hl, hj] using ih
          | some j => cases j <;> simpa [hl, hj] using ih

/-- Reduction of monadic bind on a success value. -/
@[simp]
theorem except_bind_ok {α β ε : Type} (a : α) (f : α → Except ε β) :
    (Except.ok a : Except ε α) >>= f = f a := rfl

/-- Reduction of monadic bind on an exception. -/
@[simp]
theorem except_bind_err {α β ε : Type} (e : ε) (f : α → Except ε β) :
    (Except.error e : Except ε α) >>= f = Except.error e := rfl

/-- An entry with all required fields projects to the spec's descriptor. -/
theorem packEntry_ok {p : Json} (h : hasRequired p = true) :
    packEntryToInfo p = Except.ok (specDescriptor p) := by
  cases p with
  | obj kvs =>
    simp only [hasRequired, Bool.and_eq_true, Option.isSome_iff_exists] at h
    obtain ⟨⟨⟨⟨⟨vid, hid⟩, ⟨vmu, hmu⟩⟩, ⟨vru, hru⟩⟩, ⟨vsm, hsm⟩⟩, ⟨vsr, hsr⟩⟩ := h
    simp [packEntryToInfo, pyGetItem, pyGet, specDescriptor, hid, hmu, hru, hsm, hsr]
  | null => simp [hasRequired] at h
  | bool b => simp [hasRequired] at h
  | num n => simp [hasRequired] at h
  | str s => simp [hasRequired] at h
  | arr xs => simp [hasRequired] at h

/-- An entry missing a required field (or that is not an object) makes the
projection raise. -/
theorem packEntry_err {p : Json} (h : hasRequired p = false) :
    ∃ e, packEntryToInfo p = Except.error e := by
  cases p with
  | obj kvs =>
    cases hid : jLookup kvs "id" with
    | none => exact ⟨PyErr.keyError "id", by simp [packEntryToInfo, pyGetItem, hid]⟩
    | some vid =>
      cases hmu : jLookup kvs "manifest_url" with
      | none =>
        exact ⟨PyErr.keyError "manifest_url",
          by simp [packEntryToInfo, pyGetItem, pyGet, hid, hmu]⟩
      | some vmu =>
        cases hru : jLookup kvs "rules_url" with
        | none =>
          exact ⟨PyErr.keyError "rules_url",
            by simp [packEntryToInfo, pyGetItem, pyGet, hid, hmu, hru]⟩
        | some vru =>
          cases hsm : jLookup kvs "sha256_manifest" with
          | none =>
            exact ⟨PyErr.keyError "sha256_manifest",
              by simp [packEntryToInfo, pyGetItem, pyGet, hid, hmu, hru, hsm]⟩
          | some vsm =>
            cases hsr : jLookup kvs "sha256_rules" with
            | none =>
              exact ⟨PyErr.keyError "sha256_rules",
                by simp [packEntryToInfo, pyGetItem, pyGet, hid, hmu, hru, hsm, hsr]⟩
            | some vsr =>
              exfalso
              simp [hasRequired, hid, hmu, hru, hsm, hsr] at h
  | null => exact ⟨PyErr.attributeError, rfl⟩
  | bool b => exact ⟨PyErr.attributeError, rfl⟩
  | num n => exact ⟨PyErr.attributeError, rfl⟩
  | str s => exact ⟨PyErr.attributeError, rfl⟩
  | arr xs => exact ⟨PyErr.attributeError, rfl⟩

/-- A catalog whose entries all carry the required fields projects, in
order, to the spec's descriptors. -/
theorem packsLoop_ok {ps : List Json} (h : ∀ p ∈ ps, hasRequired p = true) :
    packsLoop ps = Except.ok (ps.map specDescriptor) := by
  induction ps with
  | nil => rfl
  | cons p rest ih =>
    have hh := packEntry_ok (h p (List.mem_cons_self p rest))
    have ht := ih (fun q hq => h q (List.mem_cons_of_mem p hq))
    simp [packsLoop, hh, ht]

/-- A catalog containing any malformed entry makes the whole loop raise. -/
theorem packsLoop_err {ps : List Json} (h : ∃ p ∈ ps, hasRequired p = false) :
    ∃ e, packsLoop ps = Except.error e := by
  induction ps with
  | nil => simp at h
  | cons p rest ih =>
    by_cases hp : hasRequired p = true
    · obtain ⟨q, hq, hbad⟩ := h
      rcases List.mem_cons.mp hq with rfl | hq2
      · rw [hp] at hbad; cases hbad
      · obtain ⟨e, he⟩ := ih ⟨q, hq2, hbad⟩
        exact ⟨e, by simp [packsLoop, packEntry_ok hp, he]⟩
    · obtain ⟨e, he⟩ := packEntry_err (Bool.not_eq_true _ ▸ hp)
      exact ⟨e, by simp [packsLoop, he]⟩

/-- C4: once the catalog document has been fetched and decoded to an object
whose `packs` field is a list, `fetch_index` is the all-or-nothing
projection of that list: if every entry carries the required fields the full
descriptor list is returned with `title` defaulting to the id, `version`
defaulting to `"0.0.0"` and both digests lowercased, and if any entry is
malformed the whole operation raises, returning no partial list. -/
theorem c4_fetch_index_atomic (env : PyEnv) (url : String) (w w1 : World)
    (kvs : List (String × Json)) (ps : List Json)
    (hj : fetch_json env url w = (Except.ok (Json.obj kvs), w1))
    (hp : (jLookup kvs "packs").getD (Json.arr []) = Json.arr ps) :
    fetch_index env url w = (packsLoop ps, w1)
    ∧ ((∀ p ∈ ps, hasRequired p = true) →
        fetch_index env url w = (Except.ok (ps.map specDescriptor), w1))
    ∧ ((¬ ∀ p ∈ ps, hasRequired p = true) →
        ∃ e, fetch_index env url w = (Except.error e, w1)) := by
  have hfi : fetch_index env url w = (packsLoop ps, w1) := by
    unfold fetch_index
    rw [hj]
    dsimp only
    rw [hp]
  refine ⟨hfi, ?_, ?_⟩
  · intro hall
    rw [hfi, packsLoop_ok hall]
  · intro hnall
    have hbad : ∃ p ∈ ps, hasRequired p = false := by
      by_contra hc
      apply hnall
      intro p hp2
      by_contra hpt
      exact hc ⟨p, hp2, Bool.not_eq_true _ ▸ hpt⟩
    obtain ⟨e, he⟩ := packsLoop_err hbad
    exact ⟨e, by rw [hfi, he]⟩

/-- C4 witness: a well-formed two-entry catalog (one entry with every field,
one with the optional fields missing and mixed-case digests) projects
whole, with defaults applied and digests lowercased; a catalog with one
entry missing `sha256_rules` fails as a whole. -/
theorem c4_fetch_index_atomic_witness :
    fetch_index envCatalogOk "https://idx" w0 =
      (Except.ok
        [ { id := "A", title := "Pack A", version := "1.2.0",
            manifest_url := "https://m", rules_url := "https://r",
            sha256_manifest := "abcd", sha256_rules := "ef01" },
          { id := "B", title := "B", version := "0.0.0",
            manifest_url := "https://m2", rules_url := "https://r2",
            sha256_manifest := "00ff", sha256_rules := "11ee" } ],
        { fs := [], netlog := ["https://idx"] })
    ∧ ∃ e, fetch_index envCatalogBad "https://idx" w0 =
        (Except.error e, { fs := [], netlog := ["https://idx"] }) := by
  constructor
  · exact (c4_fetch_index_atomic envCatalogOk "https://idx" w0
      { fs := [], netlog := ["https://idx"] }
      [("packs", Json.arr [entryFull, entryDefaults])] [entryFull, entryDefaults]
      rfl rfl).2.1
      (by
        intro p hp
        rcases List.mem_cons.mp hp with rfl | hp2
        · rfl
        · rcases List.mem_cons.mp hp2 with rfl | hp3
          · rfl
          · cases hp3)
  · exact (c4_fetch_index_atomic envCatalogBad "https://idx" w0
      { fs := [], netlog := ["https://idx"] }
      [("packs", Json.arr [entryFull, entryMissing])] [entryFull, entryMissing]
      rfl rfl).2.2
      (fun hall => by
        have hm := hall entryMissing
          (List.mem_cons_of_mem entryFull (List.mem_cons_self entryMissing []))
        exact absurd hm (by decide))

/-- Two paths that agree on a leading directory but differ in the next
component are never equal, whatever follows. -/
theorem append_mid_eq {gd : Path} {a b : String} {t u : Path}
    (h : (gd ++ [a]) ++ t = (gd ++ [b]) ++ u) : a = b := by
  induction gd with
  | nil =>
    simp only [List.nil_append, List.cons_append] at h
    injection h
  | cons x gd ih =>
    simp only [List.cons_append] at h
    injection h with h1 h2
    exact ih h2

/-- Writing one file leaves every other path unchanged. -/
theorem lookup_write_ne {fs : FS} {p q : Path} {b : List Nat} (h : q ≠ p) :
    FS.lookup (FS.write fs p b) q = FS.lookup fs q := by
  simp [FS.write, FS.lookup, h]

/-- Creating one directory leaves every other path unchanged. -/
theorem lookup_mkdirAt_ne {fs : FS} {p q : Path} (h : q ≠ p) :
    FS.lookup (FS.mkdirAt fs p) q = FS.lookup fs q := by
  unfold FS.mkdirAt
  split
  · rfl
  · simp [FS.lookup, h]

/-- `mkdirpAux` only creates ancestors of `done ++ rest`: any path that is
not one of them keeps its binding. -/
theorem lookup_mkdirpAux_frame {q : Path} :
    ∀ (rest done : Path) (fs : FS), (∀ s : Path, q ++ s ≠ done ++ rest) →
      FS.lookup (FS.mkdirpAux fs done rest) q = FS.lookup fs q := by
  intro rest
  induction rest with
  | nil =>
    intro done fs h
    rfl
  | cons x rest ih =>
    intro done fs h
    unfold FS.mkdirpAux
    rw [ih (done ++ [x]) _ ?later]
    case later =>
      intro s hs
      apply h s
      rw [hs]
      simp
    apply lookup_mkdirAt_ne
    intro he
    apply h rest
    rw [he]
    simp

/-- `mkdir(parents=True)` of `p` leaves every path that is not an ancestor
of `p` (itself included) unchanged. -/
theorem lookup_mkdirp_frame {fs : FS} {p q : Path}
    (h : ∀ s : Path, q ++ s ≠ p) :
    FS.lookup (FS.mkdirp fs p) q = FS.lookup fs q := by
  apply lookup_mkdirpAux_frame
  intro s
  simpa using h s

/-- The conditional copy writes only `dest ++ [f]`. -/
theorem lookup_copyIfExists_frame {fs : FS} {src dest : Path} {f : String}
    {q : Path} (h : q ≠ dest ++ [f]) :
    FS.lookup (copyIfExists fs src dest f).2 q = FS.lookup fs q := by
  unfold copyIfExists
  dsimp only
  split
  · split
    · exact lookup_write_ne h
    · rfl
  · rfl

/-- Frame property of the seeding loop: while the destination of pack
`name` already exists, no iteration writes at or below it. -/
theorem seedLoop_frame (mgr : GuidelinesManager) (name : String) :
    ∀ (l : List (String × Node)) (fs : FS),
      FS.pathExists fs (mgr.guidelines_dir ++ [name]) = true →
      ∀ t : Path,
        FS.lookup (seedLoop mgr l fs).2 ((mgr.guidelines_dir ++ [name]) ++ t) =
          FS.lookup fs ((mgr.guidelines_dir ++ [name]) ++ t) := by
  intro l
  induction l with
  | nil =>
    intro fs hex t
    rfl
  | cons e rest ih =>
    obtain ⟨n2, node⟩ := e
    intro fs hex t
    cases node with
    | file b => exact ih fs hex t
    | dir =>
      simp only [seedLoop]
      by_cases hd : FS.pathExists fs (mgr.guidelines_dir ++ [n2]) = true
      · simp only [hd, if_true]
        exact ih fs hex t
      · have hne : name ≠ n2 := by
          intro he
          rw [← he] at hd
          exact hd hex
        simp only [hd, if_false, Bool.false_eq_true]
        have hfs1 : ∀ u : Path,
            FS.lookup (FS.mkdirp fs (mgr.guidelines_dir ++ [n2]))
                ((mgr.guidelines_dir ++ [name]) ++ u) =
              FS.lookup fs ((mgr.guidelines_dir ++ [name]) ++ u) := by
          intro u
          apply lookup_mkdirp_frame
          intro s hs
          rw [List.append_assoc (mgr.guidelines_dir ++ [name]) u s,
            show mgr.guidelines_dir ++ [n2] =
              (mgr.guidelines_dir ++ [n2]) ++ ([] : Path) by simp] at hs
          exact hne (append_mid_eq hs)
        rcases hc1 : copyIfExists (FS.mkdirp fs (mgr.guidelines_dir ++ [n2]))
            (mgr.builtin_dir ++ ["packs", n2]) (mgr.guidelines_dir ++ [n2])
            "manifest.json" with ⟨r1, fs2⟩
        have hfs2 : ∀ u : Path,
            FS.lookup fs2 ((mgr.guidelines_dir ++ [name]) ++ u) =
              FS.lookup fs ((mgr.guidelines_dir ++ [name]) ++ u) := by
          intro u
          have h2 : fs2 = (copyIfExists (FS.mkdirp fs (mgr.guidelines_dir ++ [n2]))
              (mgr.builtin_dir ++ ["packs", n2]) (mgr.guidelines_dir ++ [n2])
              "manifest.json").2 := by rw [hc1]
          rw [h2, lookup_copyIfExists_frame (fun he => hne (append_mid_eq he))]
          exact hfs1 u
        cases r1 with
        | error e1 =>
          dsimp only
          exact hfs2 t
        | ok u1 =>
          dsimp only
          rcases hc2 : copyIfExists fs2 (mgr.builtin_dir ++ ["packs", n2])
              (mgr.guidelines_dir ++ [n2]) "rules.json" with ⟨r2, fs3⟩
          have hfs3 : ∀ u : Path,
              FS.lookup fs3 ((mgr.guidelines_dir ++ [name]) ++ u) =
                FS.lookup fs ((mgr.guidelines_dir ++ [name]) ++ u) := by
            intro u
            have h3 : fs3 = (copyIfExists fs2 (mgr.builtin_dir ++ ["packs", n2])
                (mgr.guidelines_dir ++ [n2]) "rules.json").2 := by rw [hc2]
            rw [h3, lookup_copyIfExists_frame (fun he => hne (append_mid_eq he))]
            exact hfs2 u
          cases r2 with
          | error e2 =>
            dsimp only
            exact hfs3 t
          | ok u2 =>
            dsimp only
            have hex3 : FS.pathExists fs3 (mgr.guidelines_dir ++ [name]) = true := by
              have hl3 := hfs3 []
              simp only [List.append_nil] at hl3
              unfold FS.pathExists
              rw [hl3]
              exact hex
            exact (ih fs3 hex3 t).trans (hfs3 t)

/-- C8: seeding builtins never touches a pre-existing installed pack: if the
destination directory for `name` exists in the store, then after
`ensure_builtin_installed` that directory and every path below it have
exactly the binding they had before, even when the builtin source ships a
pack of the same id. -/
theorem c8_seed_never_overwrites (mgr : GuidelinesManager) (fs : FS)
    (name : String)
    (hex : FS.pathExists fs (mgr.guidelines_dir ++ [name]) = true)
    (t : Path) :
    FS.lookup (ensure_builtin_installed mgr fs).2 ((mgr.guidelines_dir ++ [name]) ++ t) =
      FS.lookup fs ((mgr.guidelines_dir ++ [name]) ++ t) := by
  unfold ensure_builtin_installed
  split
  · split
    · split
      · exact seedLoop_frame mgr name _ fs hex t
      · rfl
    · rfl
  · rfl

/-- C8 witness: with pack `a` installed and a builtin source shipping a
different payload for `a` (plus a new pack `c`), seeding leaves `a`'s
manifest bytes untouched. -/
theorem c8_seed_never_overwrites_witness :
    FS.lookup (ensure_builtin_installed mgr0 fsSeed).2 ["g", "a", "manifest.json"] =
      some (Node.file [1]) :=
  (c8_seed_never_overwrites mgr0 fsSeed "a" rfl ["manifest.json"]).trans rfl

end Continuum
